import Mathlib

/-!
Verification of the GoRest immutable REST-client builder
(`rest_client.go`, package GoRest).

The development shallowly embeds the Go source into Lean:

* Go `map[string]string` values are modelled extensionally as
  `String → Option String` (Go maps have unique keys and unordered
  iteration; the copy loops in `Header`/`Query` build a fresh map that
  extensionally equals `insert`).
* The `*http.Client` field is an opaque handle (`Nat`); the behaviour of
  `client.Do` is passed to `request` as an explicit `transport` function,
  and `net/url.Parse` as an explicit `parse` function, since both are
  external collaborators of this component.
* Fallible steps return `Except`/`Option`; `request` returns a `ReqTrace`
  recording the request handed to the transport, whether the response body
  was read, which result containers were passed to `Unmarshal` (in order),
  and the final error (if any).
* `MediaType` and `ApplicationJSON` live in a repository file that is not
  part of the given sources; they are modelled from the spec where marked.
-/

/-- Model of Go `strings.Trim(s, "/")` for the single-character cutset
used by the source: removes all leading and trailing occurrences of `c`. -/
def trimBoth (c : Char) (s : String) : String :=
  String.mk (((s.toList.dropWhile (fun x => x = c)).reverse.dropWhile
      (fun x => x = c)).reverse)

/-- Whether the second list starts the first, on character lists
(Bool-valued). -/
def charsStartWith : List Char → List Char → Bool
  | _, [] => true
  | [], _ :: _ => false
  | a :: s, b :: t => a = b && charsStartWith s t

/-- Whether `sub` occurs as a contiguous run inside `s`, on character
lists. -/
def charsContain : List Char → List Char → Bool
  | [], sub => sub.isEmpty
  | c :: rest, sub => charsStartWith (c :: rest) sub || charsContain rest sub

/-- Model of Go `strings.Contains(s, sub)`: `sub` occurs inside `s`.
The Go function works on bytes; on the media-type names involved here
(valid ASCII) byte- and character-level containment coincide. -/
def strContains (s sub : String) : Bool :=
  charsContain s.toList sub.toList

/-- Model of Go `strings.ToLower` as used on media-type names: lowercases
each character (ASCII case mapping, which is all that media-type names
exercise).  Defined over the character list so that it evaluates by
kernel reduction on concrete inputs. -/
def strToLower (s : String) : String :=
  String.mk (s.toList.map Char.toLower)

/-- Result containers (`resEntity ...interface{}` in the source).  A pure
embedding cannot mutate a container in place, so containers are opaque
identifiers and `request` reports which containers were handed to
`Unmarshal`, in order, via its trace. -/
abbrev Container := Nat

/-- Modelled from the spec: the `MediaType` collaborator is defined in a
repository file not included in the sources.  Per spec section 6 it
bundles a wire-format name (`String()` in Go, field `str` here) and a
deserialisation routine `Unmarshal(bytes, target) → error`
(`none` = success, `some msg` = the returned error). -/
structure MediaType where
  str : String
  Unmarshal : String → Container → Option String

/-- Modelled from the spec: `ApplicationJSON` is the concrete JSON
`MediaType` used as the factory default; its wire-format name is
`application/json`.  No claim depends on the JSON decoder itself, so its
`Unmarshal` is modelled as always succeeding. -/
def ApplicationJSON : MediaType :=
  { str := "application/json", Unmarshal := fun _ _ => none }

/-- Model of `*http.Cookie` (named to mirror `http.Cookie`): the fields
the source could attach.  Other cookie attributes are irrelevant to every
claim. -/
structure HttpCookie where
  name : String
  value : String
deriving DecidableEq, Repr

/-- Go `map[string]string`, modelled extensionally.  Go maps have unique
keys, so a total function to `Option String` captures exactly the
observable content. -/
abbrev StrMap := String → Option String

/-- The empty Go map (`make(map[string]string)`). -/
def StrMap.empty : StrMap := fun _ => none

/-- Map update `m[key] = value`.  The source's copy loops
(`for k, v := range m { fresh[k] = v }; fresh[key] = value`) produce a
fresh map whose content is exactly this extension. -/
def StrMap.insert (m : StrMap) (key value : String) : StrMap :=
  fun x => if x = key then some value else m x

/-- The `RestClient` struct of the source.  `client` is an opaque handle
standing for the `*http.Client` pointer (its `Do` behaviour is a
`request` parameter). -/
structure RestClient where
  client : Nat
  url : String
  accept : MediaType
  contentType : MediaType
  headers : StrMap
  query : StrMap
  cookies : List HttpCookie

/-- `MakeClient`: trims `/` from both ends of the base URL, defaults both
media types to `ApplicationJSON`, and starts with empty header and query
maps and a nil cookie slice (`client` is a fresh `&http.Client{}`,
modelled as handle `0`). -/
def MakeClient (baseUrl : String) : RestClient :=
  { client := 0
    url := trimBoth '/' baseUrl
    accept := ApplicationJSON
    contentType := ApplicationJSON
    headers := StrMap.empty
    query := StrMap.empty
    cookies := [] }

namespace RestClient

/-- Builder `Accept`: replaces the accept media type, all other fields
carried over. -/
def Accept (rc : RestClient) (accept : MediaType) : RestClient :=
  { rc with accept := accept }

/-- Builder `ContentType`: replaces the content-type media type. -/
def ContentType (rc : RestClient) (contentType : MediaType) : RestClient :=
  { rc with contentType := contentType }

/-- Builder `Path`: the source copies the config and then, for each
segment in call order, sets `url = fmt.Sprintf("%s/%s", url,
strings.Trim(p, "/"))`; the loop is this left fold. -/
def Path (rc : RestClient) (path : List String) : RestClient :=
  { rc with url := path.foldl (fun acc p => acc ++ "/" ++ trimBoth '/' p) rc.url }

/-- Builder `Query` as written in the source: builds a fresh map by
copying every entry of `rc.headers` (not `rc.query`), then stores
`newQuery[key] = value`, and installs that map as the query of the new
config.  All other fields, including `headers`, carry over. -/
def Query (rc : RestClient) (key value : String) : RestClient :=
  { rc with query := StrMap.insert rc.headers key value }

/-- Builder `Header`: builds a fresh map copying every entry of
`rc.headers`, stores `newHeaders[key] = value`, and installs it as the
headers of the new config. -/
def Header (rc : RestClient) (key value : String) : RestClient :=
  { rc with headers := StrMap.insert rc.headers key value }

/-- Builder `Cookie`: appends the cookie to the cookie slice. -/
def Cookie (rc : RestClient) (cookie : HttpCookie) : RestClient :=
  { rc with cookies := rc.cookies ++ [cookie] }

end RestClient

/-- The parsed URI (`net/url.URL`) as used by the source: the only
operations consumed are `uri.Query()` (derived from the raw query) and
`uri.String()`. -/
structure URI where
  rawQuery : String
  str : String
deriving DecidableEq, Repr

/-- The query-add loop of `request`:
`for k, v := range rc.query { uri.Query().Add(k, v) }`.
In Go, `uri.Query()` parses `uri.RawQuery` into a *fresh* `url.Values`
map on every call; `Add` mutates that temporary map, which is discarded
at the end of each iteration and never written back into `uri`
(`uri.RawQuery` is never reassigned).  Hence the loop leaves the URI
unchanged, which is what this function records. -/
def goURIQueryAddLoop (uri : URI) (_query : StrMap) : URI := uri

/-- The outgoing `*http.Request` as observed by the transport: method,
request-target string, header list in insertion order (Go
`http.Header.Add` appends), optional body bytes, and attached cookies
(`AddCookie` would append here; the source never calls it, so the field
stays as `http.NewRequest` leaves it: empty). -/
structure OutgoingRequest where
  method : String
  uriString : String
  headers : List (String × String)
  body : Option String
  cookies : List HttpCookie
deriving DecidableEq, Repr

/-- Model of `req.Header.Add(k, v)`: appends the pair.  (Go canonicalises
the key; the two keys the source passes, `Accept` and `Content-Type`, are
already canonical.) -/
def addHeader (r : OutgoingRequest) (k v : String) : OutgoingRequest :=
  { r with headers := r.headers ++ [(k, v)] }

/-- Token characters accepted by Go's `http` method validation
(`httpguts.IsTokenRune`): ALPHA, DIGIT and the RFC 7230 specials. -/
def isTokenChar (c : Char) : Bool :=
  c.isAlpha || c.isDigit ||
  c ∈ ['!', '#', '$', '%', '&', Char.ofNat 39, '*', '+', '-', '.',
       Char.ofNat 94, '_', Char.ofNat 96, '|', Char.ofNat 126]

/-- Go `http` method validity: non-empty and made of token characters. -/
def validMethod (m : String) : Bool :=
  !m.isEmpty && m.toList.all isTokenChar

/-- Model of `http.NewRequest(method, url, body)` for the uses in the
source: fails on an invalid method, otherwise yields a request with an
empty header map, no cookies, and the given body (`nil` body ↦ `none`).
The URL string handed in is `uri.String()` of an already-parsed URI, so
its re-parse inside `NewRequest` cannot fail. -/
def newRequest (method urlStr : String) (body : Option String) :
    Except String OutgoingRequest :=
  if validMethod method then
    Except.ok { method := method, uriString := urlStr, headers := [],
                body := body, cookies := [] }
  else
    Except.error ("net/http: invalid method " ++ method)

/-- The transport's `*http.Response` as consumed by the source: the
`Content-Type` header value and the outcome of `ioutil.ReadAll(res.Body)`
(which can itself fail). -/
structure Response where
  contentTypeHeader : String
  bodyResult : Except String String
deriving Repr

/-- Error taxonomy of `request`, tagged by the step that produced the
error value (the Go code returns the collaborator's error unwrapped; the
content-type mismatch error is built by the source itself and carries the
got/want pair). -/
inductive ReqError where
  | invalidURL (e : String)
  | requestBuild (e : String)
  | transport (e : String)
  | contentTypeMismatch (got want : String)
  | bodyRead (e : String)
  | deserialization (e : String)
deriving DecidableEq, Repr

/-- Observable trace of one `request` execution: the request handed to
the transport (if any was built and sent), whether `ioutil.ReadAll` was
invoked on the response body, the containers passed to `Unmarshal` in
order, and the returned error (`none` = the Go `nil` return). -/
structure ReqTrace where
  sent : Option OutgoingRequest
  bodyWasRead : Bool
  attempted : List Container
  result : Option ReqError
deriving DecidableEq, Repr

/-- The unmarshal loop of `request`:
`for _, e := range resEntity { if err = Unmarshal(body, e); err != nil { return err } }`.
Returns the containers actually handed to `Unmarshal`, in order, and the
first error (if any). -/
def unmarshalSeq (mt : MediaType) (body : String) :
    List Container → List Container × Option String
  | [] => ([], none)
  | e :: rest =>
    match mt.Unmarshal body e with
    | some err => ([e], some err)
    | none =>
      let r := unmarshalSeq mt body rest
      (e :: r.1, r.2)

/-- The `request` function of the source, with the URL parser and the
HTTP client's `Do` passed in as the external collaborators they are.
Step by step as in the source: parse the URL; run the (effect-free)
query-add loop; build the request; add the `Accept` and `Content-Type`
headers; send; check the response content type when result containers
were supplied; read the body; unmarshal into each container in order. -/
def request (rc : RestClient)
    (parse : String → Except String URI)
    (transport : OutgoingRequest → Except String Response)
    (httpReq : String) (reqBody : Option String)
    (resEntity : List Container) : ReqTrace :=
  match parse rc.url with
  | Except.error e =>
    { sent := none, bodyWasRead := false, attempted := [],
      result := some (ReqError.invalidURL e) }
  | Except.ok uri0 =>
    let uri := goURIQueryAddLoop uri0 rc.query
    match newRequest httpReq uri.str reqBody with
    | Except.error e =>
      { sent := none, bodyWasRead := false, attempted := [],
        result := some (ReqError.requestBuild e) }
    | Except.ok req0 =>
      let req := addHeader (addHeader req0 "Accept" rc.accept.str)
        "Content-Type" rc.contentType.str
      match transport req with
      | Except.error e =>
        { sent := some req, bodyWasRead := false, attempted := [],
          result := some (ReqError.transport e) }
      | Except.ok res =>
        if resEntity.length != 0 &&
            !(strContains (strToLower res.contentTypeHeader)
                (strToLower rc.accept.str)) then
          { sent := some req, bodyWasRead := false, attempted := [],
            result := some (ReqError.contentTypeMismatch
              res.contentTypeHeader rc.accept.str) }
        else
          match res.bodyResult with
          | Except.error e =>
            { sent := some req, bodyWasRead := true, attempted := [],
              result := some (ReqError.bodyRead e) }
          | Except.ok body =>
            let r := unmarshalSeq rc.accept body resEntity
            { sent := some req, bodyWasRead := true, attempted := r.1,
              result := r.2.map ReqError.deserialization }

namespace RestClient

/-- `Get`: routes through `request` with method `GET` and a nil body. -/
def Get (rc : RestClient) (parse : String → Except String URI)
    (transport : OutgoingRequest → Except String Response)
    (resEntity : List Container) : ReqTrace :=
  request rc parse transport "GET" none resEntity

/-- `Put`: routes through `request` with method `PUT`. -/
def Put (rc : RestClient) (parse : String → Except String URI)
    (transport : OutgoingRequest → Except String Response)
    (reqBody : Option String) (resEntity : List Container) : ReqTrace :=
  request rc parse transport "PUT" reqBody resEntity

/-- `Post`: routes through `request` with method `POST`. -/
def Post (rc : RestClient) (parse : String → Except String URI)
    (transport : OutgoingRequest → Except String Response)
    (reqBody : Option String) (resEntity : List Container) : ReqTrace :=
  request rc parse transport "POST" reqBody resEntity

/-- `Delete` as written in the source: `return nil`, ignoring the
configuration and the arguments.  It takes no parser and no transport
because the source body performs no I/O of any kind. -/
def Delete (_rc : RestClient) (_entity : List Container) : Option ReqError :=
  none

end RestClient

/-- The request as it reaches the transport when building succeeds: the
record `http.NewRequest` returns (empty header map, no cookies) after the
two `Header.Add` calls of the source. -/
def builtRequest (rc : RestClient) (uriStr method : String)
    (reqBody : Option String) : OutgoingRequest :=
  { method := method, uriString := uriStr,
    headers := [("Accept", rc.accept.str), ("Content-Type", rc.contentType.str)],
    body := reqBody, cookies := [] }

/-- Spec-side description of what `Path` appends: for each segment in
call order, `/` followed by the slash-trimmed segment. -/
def pathSuffix (segs : List String) : String :=
  segs.foldr (fun p acc => "/" ++ trimBoth '/' p ++ acc) ""

/-- A URL parser collaborator that succeeds on every input and whose URI
stringifies back to the input (the behaviour of `net/url.Parse` followed
by `String()` on the well-formed URLs used in the concrete instances). -/
def parseOk : String → Except String URI :=
  fun s => Except.ok { rawQuery := "", str := s }

/-- A transport whose response declares an XML content type. -/
def transportXml : OutgoingRequest → Except String Response :=
  fun _ => Except.ok { contentTypeHeader := "text/xml",
                       bodyResult := Except.ok "<a/>" }

/-- A transport whose response declares a JSON content type with a
charset parameter. -/
def transportJsonCharset : OutgoingRequest → Except String Response :=
  fun _ => Except.ok { contentTypeHeader := "application/json; charset=utf-8",
                       bodyResult := Except.ok "null" }

/-- A JSON media type whose decoder rejects container `1` and accepts
every other container; used to exercise the fail-fast unmarshal loop on
concrete inputs. -/
def jsonRejecting1 : MediaType :=
  { str := "application/json",
    Unmarshal := fun _ e => if e = 1 then some "boom" else none }

/-- If every container unmarshals cleanly, the loop visits all of them
in order and reports no error. -/
theorem unmarshalSeq_all_ok (mt : MediaType) (body : String)
    (es : List Container) (h : ∀ e ∈ es, mt.Unmarshal body e = none) :
    unmarshalSeq mt body es = (es, none) := by
  induction es with
  | nil => rfl
  | cons e rest ih =>
    have he : mt.Unmarshal body e = none := h e (by simp)
    have hr := ih (fun x hx => h x (by simp [hx]))
    simp [unmarshalSeq, he, hr]

/-- If the containers split as `pre ++ e :: post` with `pre` all clean
and `e` failing, the loop visits exactly `pre ++ [e]` and reports the
error of `e`. -/
theorem unmarshalSeq_first_error (mt : MediaType) (body : String)
    (pre : List Container) (e : Container) (post : List Container)
    (err : String) (hpre : ∀ x ∈ pre, mt.Unmarshal body x = none)
    (he : mt.Unmarshal body e = some err) :
    unmarshalSeq mt body (pre ++ e :: post) = (pre ++ [e], some err) := by
  induction pre with
  | nil => simp [unmarshalSeq, he]
  | cons p rest ih =>
    have hp : mt.Unmarshal body p = none := hpre p (by simp)
    have hr := ih (fun x hx => hpre x (by simp [hx]))
    simp [unmarshalSeq, hp, hr]

/-- The `Path` fold, for an arbitrary starting URL. -/
theorem pathFold_eq (u : String) (segs : List String) :
    segs.foldl (fun acc p => acc ++ "/" ++ trimBoth '/' p) u =
      u ++ pathSuffix segs := by
  induction segs generalizing u with
  | nil => simp [pathSuffix]
  | cons s rest ih =>
    simp only [List.foldl_cons, ih, pathSuffix, List.foldr_cons]
    simp [String.append_assoc]

/-- C1: the source's `Query` copies the *headers* map into the fresh
query map (a copy-paste slip of the `Header` body).  Concretely: from a
config whose headers hold `h ↦ x` and whose query map is empty,
`Query "k" "v"` produces a query map that still answers `x` at key `h`,
whereas the claimed behaviour — the existing (empty) query map extended
with `{k: v}` — answers nothing at `h`. -/
theorem c1_query_copies_from_headers :
    ((((MakeClient "http://x").Header "h" "x").Query "k" "v").query "h" = some "x") ∧
    (((MakeClient "http://x").Header "h" "x").query "h" = none) ∧
    (StrMap.insert (((MakeClient "http://x").Header "h" "x").query) "k" "v" "h" = none) := by
  refine ⟨?_, rfl, ?_⟩ <;>
    simp [MakeClient, RestClient.Header, RestClient.Query, StrMap.insert, StrMap.empty]

/-- C2: the accumulated query map has no effect on `request`: replacing
the query map of any config by any other map leaves the entire execution
trace — in particular the outgoing request's URI string, headers and
body — unchanged, because the `url.Values` obtained from `uri.Query()`
is a discarded copy that is never written back into the URI. -/
theorem c2_query_map_has_no_effect (rc : RestClient) (q : StrMap)
    (parse : String → Except String URI)
    (transport : OutgoingRequest → Except String Response)
    (method : String) (reqBody : Option String)
    (resEntity : List Container) :
    request { rc with query := q } parse transport method reqBody resEntity =
      request rc parse transport method reqBody resEntity := rfl

/-- C4: `Header` returns a config whose header map answers the new value
at the new key and the old map's value everywhere else, leaves every
other field of the config untouched, and two headers branched from a
common base are independent extensions of the base's map. -/
theorem c4_header_extension_and_independence (c : RestClient) (k v : String) :
    ((c.Header k v).headers k = some v) ∧
    (∀ x, x ≠ k → (c.Header k v).headers x = c.headers x) ∧
    ((c.Header k v).client = c.client ∧ (c.Header k v).url = c.url ∧
      (c.Header k v).accept = c.accept ∧
      (c.Header k v).contentType = c.contentType ∧
      (c.Header k v).query = c.query ∧
      (c.Header k v).cookies = c.cookies) ∧
    (∀ base : RestClient,
      (base.Header "H" "1").headers "H" = some "1" ∧
      (base.Header "H" "2").headers "H" = some "2" ∧
      ∀ x, x ≠ "H" →
        (base.Header "H" "1").headers x = base.headers x ∧
        (base.Header "H" "2").headers x = base.headers x) := by
  refine ⟨by simp [RestClient.Header, StrMap.insert],
    fun x hx => by simp [RestClient.Header, StrMap.insert, hx],
    ⟨rfl, rfl, rfl, rfl, rfl, rfl⟩,
    fun base => ⟨by simp [RestClient.Header, StrMap.insert],
      by simp [RestClient.Header, StrMap.insert],
      fun x hx => ⟨by simp [RestClient.Header, StrMap.insert, hx],
        by simp [RestClient.Header, StrMap.insert, hx]⟩⟩⟩

/-- Witness for C4 at a concrete config, key and value. -/
theorem c4_header_extension_and_independence_witness :
    ((MakeClient "u").Header "A" "B").headers "A" = some "B" ∧
    ((MakeClient "u").Header "A" "B").headers "Z" = (MakeClient "u").headers "Z" :=
  ⟨(c4_header_extension_and_independence (MakeClient "u") "A" "B").1,
   (c4_header_extension_and_independence (MakeClient "u") "A" "B").2.1 "Z"
      (by decide)⟩

/-- C7: `MakeClient` trims the `/` characters at both ends of the base
URL; `Path` appends, for each segment in call order, a `/` followed by
the slash-trimmed segment; and on the concrete example the composed URL
is `http://x/a/b` with no duplicated slashes. -/
theorem c7_path_composition :
    (∀ b : String, (MakeClient b).url = trimBoth '/' b) ∧
    (∀ (rc : RestClient) (segs : List String),
      (rc.Path segs).url = rc.url ++ pathSuffix segs) ∧
    (((MakeClient "http://x/").Path ["a", "b"]).url = "http://x/a/b") := by
  refine ⟨fun b => rfl, fun rc segs => ?_, by decide⟩
  simpa [RestClient.Path] using pathFold_eq rc.url segs

/-- C9: `Delete` is the source's `return nil`: it ignores the config and
the arguments, takes no parser and no transport (its body performs no
I/O), and always reports success. -/
theorem c9_delete_always_succeeds (rc : RestClient) (entity : List Container) :
    rc.Delete entity = none := rfl

/-- C10: adding a header under an existing key overwrites the previous
value — the header maps of `c.Header k v1 |>.Header k v2` and of
`c.Header k v2` are equal (and, the map model being keyed, a key never
holds two entries). -/
theorem c10_header_last_write_wins (c : RestClient) (k v1 v2 : String) :
    ((c.Header k v1).Header k v2).headers = (c.Header k v2).headers := by
  funext x
  by_cases h : x = k <;> simp [RestClient.Header, StrMap.insert, h]

/-- When the URL parses, the method is valid and the transport answers,
`request` reduces to the content-type check followed by body read and
the unmarshal loop, with the built request handed to the transport. -/
theorem request_ok_eq (rc : RestClient)
    (parse : String → Except String URI)
    (transport : OutgoingRequest → Except String Response)
    (m : String) (b : Option String) (es : List Container)
    (uri : URI) (res : Response)
    (hp : parse rc.url = Except.ok uri) (hm : validMethod m = true)
    (ht : transport (builtRequest rc uri.str m b) = Except.ok res) :
    request rc parse transport m b es =
      if es.length != 0 &&
          !(strContains (strToLower res.contentTypeHeader)
              (strToLower rc.accept.str)) then
        { sent := some (builtRequest rc uri.str m b), bodyWasRead := false,
          attempted := [],
          result := some (ReqError.contentTypeMismatch
            res.contentTypeHeader rc.accept.str) }
      else
        match res.bodyResult with
        | Except.error e =>
          { sent := some (builtRequest rc uri.str m b), bodyWasRead := true,
            attempted := [], result := some (ReqError.bodyRead e) }
        | Except.ok body =>
          { sent := some (builtRequest rc uri.str m b), bodyWasRead := true,
            attempted := (unmarshalSeq rc.accept body es).1,
            result := (unmarshalSeq rc.accept body es).2.map
              ReqError.deserialization } := by
  have hb : builtRequest rc uri.str m b =
      addHeader (addHeader (OutgoingRequest.mk m uri.str [] b [])
        "Accept" rc.accept.str) "Content-Type" rc.contentType.str := rfl
  simp only [request, hp, goURIQueryAddLoop, newRequest, hm, if_true]
  rw [hb] at ht
  simp only [ht]
  rw [← hb]

/-- Whenever the URL parses and the method is valid, the request handed
to the transport is exactly the built request, whatever the transport
answers and however the rest of the execution goes. -/
theorem request_sent_eq (rc : RestClient)
    (parse : String → Except String URI)
    (transport : OutgoingRequest → Except String Response)
    (m : String) (b : Option String) (es : List Container) (uri : URI)
    (hp : parse rc.url = Except.ok uri) (hm : validMethod m = true) :
    (request rc parse transport m b es).sent =
      some (builtRequest rc uri.str m b) := by
  simp only [request, hp, goURIQueryAddLoop, newRequest, hm, if_true]
  cases ht : transport (addHeader (addHeader (OutgoingRequest.mk m uri.str [] b [])
      "Accept" rc.accept.str) "Content-Type" rc.contentType.str) with
  | error e => simp [builtRequest, addHeader]
  | ok res =>
    by_cases hc : (es.length != 0 &&
        !(strContains (strToLower res.contentTypeHeader)
            (strToLower rc.accept.str))) = true
    · simp [hc, builtRequest, addHeader]
    · cases hbr : res.bodyResult with
      | error e => simp [hc, hbr, builtRequest, addHeader]
      | ok body => simp [hc, hbr, builtRequest, addHeader]

/-- C3: whatever request reaches the transport carries exactly the two
headers the source adds — `Accept` with the accept media type's wire name
and `Content-Type` with the content-type media type's wire name — and
nothing from the config's accumulated `headers` map. -/
theorem c3_outgoing_headers_exactly_accept_and_content_type
    (rc : RestClient) (parse : String → Except String URI)
    (transport : OutgoingRequest → Except String Response)
    (m : String) (b : Option String) (es : List Container)
    (req : OutgoingRequest)
    (h : (request rc parse transport m b es).sent = some req) :
    req.headers = [("Accept", rc.accept.str),
                   ("Content-Type", rc.contentType.str)] := by
  cases hp : parse rc.url with
  | error e => simp [request, hp] at h
  | ok uri0 =>
    by_cases hm : validMethod m = true
    · rw [request_sent_eq rc parse transport m b es uri0 hp hm] at h
      have hreq : builtRequest rc uri0.str m b = req := Option.some.inj h
      rw [← hreq]
      rfl
    · simp [request, hp, goURIQueryAddLoop, newRequest, hm] at h

/-- Witness for C3 at a concrete config, collaborators and request. -/
theorem c3_outgoing_headers_exactly_accept_and_content_type_witness :
    ({ method := "GET", uriString := "http://x",
       headers := [("Accept", "application/json"),
                   ("Content-Type", "application/json")],
       body := none, cookies := [] } : OutgoingRequest).headers =
      [("Accept", (MakeClient "http://x").accept.str),
       ("Content-Type", (MakeClient "http://x").contentType.str)] :=
  c3_outgoing_headers_exactly_accept_and_content_type
    (MakeClient "http://x") parseOk transportJsonCharset "GET" none []
    { method := "GET", uriString := "http://x",
      headers := [("Accept", "application/json"),
                  ("Content-Type", "application/json")],
      body := none, cookies := [] } rfl

/-- C5: once a response is obtained, `request` returns the
content-type-mismatch error exactly when result containers were supplied
and the response's declared content type does not contain the accept
type's wire name case-insensitively; and on a mismatch the body is not
read and no container is handed to `Unmarshal`. -/
theorem c5_mismatch_iff (rc : RestClient)
    (parse : String → Except String URI)
    (transport : OutgoingRequest → Except String Response)
    (m : String) (b : Option String) (es : List Container)
    (uri : URI) (res : Response)
    (hp : parse rc.url = Except.ok uri) (hm : validMethod m = true)
    (ht : transport (builtRequest rc uri.str m b) = Except.ok res) :
    (((request rc parse transport m b es).result =
        some (ReqError.contentTypeMismatch res.contentTypeHeader rc.accept.str)) ↔
      (es ≠ [] ∧
        strContains (strToLower res.contentTypeHeader)
          (strToLower rc.accept.str) = false)) ∧
    (es ≠ [] →
      strContains (strToLower res.contentTypeHeader)
        (strToLower rc.accept.str) = false →
      (request rc parse transport m b es).bodyWasRead = false ∧
      (request rc parse transport m b es).attempted = []) := by
  rw [request_ok_eq rc parse transport m b es uri res hp hm ht]
  by_cases hc : (es.length != 0 &&
      !(strContains (strToLower res.contentTypeHeader)
          (strToLower rc.accept.str))) = true
  · have hc' := hc
    rw [Bool.and_eq_true] at hc'
    obtain ⟨h1, h2⟩ := hc'
    have hne : es ≠ [] := by
      intro hnil
      subst hnil
      simp at h1
    have hs : strContains (strToLower res.contentTypeHeader)
        (strToLower rc.accept.str) = false := by
      cases hsc : strContains (strToLower res.contentTypeHeader)
          (strToLower rc.accept.str)
      · rfl
      · rw [hsc] at h2
        simp at h2
    simp [hc, hne, hs]
  · have hnot : ¬(es ≠ [] ∧
        strContains (strToLower res.contentTypeHeader)
          (strToLower rc.accept.str) = false) := by
      rintro ⟨h1, h2⟩
      apply hc
      rw [Bool.and_eq_true]
      constructor
      · rw [bne_iff_ne]
        intro h0
        exact h1 (List.length_eq_zero.mp h0)
      · rw [h2]
        rfl
    constructor
    · cases hbr : res.bodyResult with
      | error e => simp [hc, hbr, hnot]
      | ok body =>
        cases hu : (unmarshalSeq rc.accept body es).2 with
        | none => simp [hc, hbr, hu, hnot]
        | some er => simp [hc, hbr, hu, hnot]
    · intro h1 h2
      exact absurd ⟨h1, h2⟩ hnot

/-- Witness for C5: with accept `application/json`, a `text/xml` response
is a mismatch, and a `application/json; charset=utf-8` response is not. -/
theorem c5_mismatch_iff_witness :
    ((request (MakeClient "http://x") parseOk transportXml "GET" none [1]).result =
      some (ReqError.contentTypeMismatch "text/xml" "application/json")) ∧
    ((request (MakeClient "http://x") parseOk transportJsonCharset
        "GET" none [1]).result ≠
      some (ReqError.contentTypeMismatch "application/json; charset=utf-8"
        "application/json")) := by
  constructor
  · exact (c5_mismatch_iff (MakeClient "http://x") parseOk transportXml
      "GET" none [1] (URI.mk "" "http://x")
      (Response.mk "text/xml" (Except.ok "<a/>")) rfl (by decide) rfl).1.mpr
      ⟨by decide, by decide⟩
  · intro hcontra
    have h2 := (c5_mismatch_iff (MakeClient "http://x") parseOk
      transportJsonCharset "GET" none [1] (URI.mk "" "http://x")
      (Response.mk "application/json; charset=utf-8" (Except.ok "null"))
      rfl (by decide) rfl).1.mp hcontra
    exact absurd h2.2 (by decide)

/-- C6: when a response body is obtained, the result containers are
unmarshalled in order over the same payload; if all succeed the call
reports no error and every container was visited, and if some container
is the first to fail, the call reports exactly that error and the visited
containers are the clean prefix plus the failing one — later containers
are never handed to `Unmarshal`. -/
theorem c6_unmarshal_fail_fast (rc : RestClient)
    (parse : String → Except String URI)
    (transport : OutgoingRequest → Except String Response)
    (m : String) (b : Option String) (es : List Container)
    (uri : URI) (res : Response) (payload : String)
    (hp : parse rc.url = Except.ok uri) (hm : validMethod m = true)
    (ht : transport (builtRequest rc uri.str m b) = Except.ok res)
    (hok : es = [] ∨ strContains (strToLower res.contentTypeHeader)
        (strToLower rc.accept.str) = true)
    (hbody : res.bodyResult = Except.ok payload) :
    ((∀ e ∈ es, rc.accept.Unmarshal payload e = none) →
      (request rc parse transport m b es).result = none ∧
      (request rc parse transport m b es).attempted = es) ∧
    (∀ pre e post err, es = pre ++ e :: post →
      (∀ x ∈ pre, rc.accept.Unmarshal payload x = none) →
      rc.accept.Unmarshal payload e = some err →
      (request rc parse transport m b es).result =
        some (ReqError.deserialization err) ∧
      (request rc parse transport m b es).attempted = pre ++ [e]) := by
  rw [request_ok_eq rc parse transport m b es uri res hp hm ht]
  have hc : (es.length != 0 &&
      !(strContains (strToLower res.contentTypeHeader)
          (strToLower rc.accept.str))) = false := by
    rcases hok with h | h
    · subst h
      simp
    · rw [h]
      simp
  simp only [hc, Bool.false_eq_true, if_false, hbody]
  constructor
  · intro hall
    rw [unmarshalSeq_all_ok rc.accept payload es hall]
    exact ⟨rfl, rfl⟩
  · intro pre e post err hsplit hpre he
    subst hsplit
    rw [unmarshalSeq_first_error rc.accept payload pre e post err hpre he]
    exact ⟨rfl, rfl⟩

/-- Witness for C6: three containers of which the middle one fails to
unmarshal; the call reports that failure and visits only the first two. -/
theorem c6_unmarshal_fail_fast_witness :
    ((request ((MakeClient "http://x").Accept jsonRejecting1) parseOk
        transportJsonCharset "GET" none [0, 1, 2]).result =
      some (ReqError.deserialization "boom")) ∧
    ((request ((MakeClient "http://x").Accept jsonRejecting1) parseOk
        transportJsonCharset "GET" none [0, 1, 2]).attempted = [0, 1]) :=
  (c6_unmarshal_fail_fast ((MakeClient "http://x").Accept jsonRejecting1)
    parseOk transportJsonCharset "GET" none [0, 1, 2] (URI.mk "" "http://x")
    (Response.mk "application/json; charset=utf-8" (Except.ok "null")) "null"
    rfl (by decide) rfl (Or.inr (by decide)) rfl).2
    [0] 1 [2] "boom" rfl (by decide) rfl

/-- C8: the source never attaches cookies to the outgoing request.  A
config holding one accumulated cookie hands the transport a request whose
cookie list is empty (shown here with the full sent request: only the
`Accept` and `Content-Type` headers and no cookies). -/
theorem c8_cookies_never_attached :
    ((((MakeClient "http://x").Cookie (HttpCookie.mk "a" "b")).cookies =
        [HttpCookie.mk "a" "b"])) ∧
    ((request ((MakeClient "http://x").Cookie (HttpCookie.mk "a" "b"))
        parseOk transportJsonCharset "GET" none []).sent =
      some { method := "GET", uriString := "http://x",
             headers := [("Accept", "application/json"),
                         ("Content-Type", "application/json")],
             body := none, cookies := [] }) ∧
    ((request ((MakeClient "http://x").Cookie (HttpCookie.mk "a" "b"))
        parseOk transportJsonCharset "GET" none []).result = none) :=
  ⟨rfl, rfl, rfl⟩
